import Mathlib

/-!
Shallow embedding of `run.py` (El_Pais RSS-to-EPUB pipeline).

Network effects are modelled by an explicit environment `Env`:
* `feed` is the result of fetching the RSS feed (`none` = RequestException),
  parsed into raw `<item>` elements whose `<link>`/`<category>` children may
  be absent (BeautifulSoup `find` returning `None`).
* `fetchArticle url attempt` is the outcome of the `attempt`-th
  `Article(url); download(); parse()` call (`none` = an exception was raised).
* `htmlParagraphs html` is the list of `p.get_text()` strings produced by
  `BeautifulSoup(html).find_all('p')`, in document order.
* `imageOk url` says whether `requests.get(url, stream=True)` +
  `raise_for_status()` succeeds in `download_image`.
* `names k` is the `k`-th 10-character random filename drawn from
  `random.choice(string.ascii_letters)`; dates are day numbers and `today`
  is `datetime.today().date()`.
* `writeOk` says whether `epub.write_epub` succeeds.

Uncaught Python exceptions are modelled by `Except PyExn`; a caught
exception never surfaces in the result.
-/

namespace ElPais

/-- The fields of a parsed `newspaper.Article` used by `run.py`.
`publish_date` is `none` when newspaper found no date (`None` in Python). -/
structure ArticleRecord where
  title : String
  publish_date : Option Nat
  article_html : Option String
  text : String
  top_img : String
deriving Repr, DecidableEq

/-- Python exceptions that can escape `create_epub` in the model. -/
inductive PyExn where
  | attributeError
  | typeError
deriving Repr, DecidableEq

/-- A raw `<item>` element of the feed: its `<link>`/`<category>` children,
`none` when `item.find(...)` returns `None`. -/
structure RawItem where
  link : Option String
  category : Option String
deriving Repr, DecidableEq

/-- One chapter of the output book (`epub.EpubHtml`). -/
structure Chapter where
  title : String
  file_name : String
  content : String
deriving Repr, DecidableEq

/-- The deterministic environment standing for all I/O performed by one run. -/
structure Env where
  feed : Option (List RawItem)
  fetchArticle : String → Nat → Option ArticleRecord
  htmlParagraphs : String → List String
  imageOk : String → Bool
  names : Nat → String
  today : Nat
  writeOk : Bool

/-- `download_image` (run.py lines 21-33): single streamed GET; on any
`RequestException` the error is printed and the function falls through,
returning `None`.  On success the file is named by the `nameIdx`-th random
name plus the fixed `.jpeg` extension. -/
def download_image (env : Env) (nameIdx : Nat) (url : String) : Option String :=
  if env.imageOk url then some (env.names nameIdx ++ ".jpeg") else none

/-- Inner loop of `download_article_with_retry`: attempt index `i`, with
`fuel` attempts remaining (including the current one). -/
def retryFrom (attempts : Nat → Option ArticleRecord) : Nat → Nat → Option ArticleRecord
  | _, 0 => none
  | i, fuel + 1 =>
    match attempts i with
    | some a => some a
    | none => retryFrom attempts (i + 1) fuel

/-- `download_article_with_retry` (run.py lines 48-63): up to `max_retries`
attempts; each attempt is an independent fetch+parse; any exception counts
as a failed attempt; returns `None` after the last failed attempt. -/
def download_article_with_retry (attempts : Nat → Option ArticleRecord)
    (max_retries : Nat) : Option ArticleRecord :=
  retryFrom attempts 0 max_retries

/-- The sleeps performed by `retryFrom`: after a failed attempt `i` that is
not the last one, the code executes `time.sleep(2 ** attempt)`. -/
def retryDelaysFrom (attempts : Nat → Option ArticleRecord) : Nat → Nat → List Nat
  | _, 0 => []
  | i, fuel + 1 =>
    match attempts i with
    | some _ => []
    | none => if fuel = 0 then [] else 2 ^ i :: retryDelaysFrom attempts (i + 1) fuel

/-- The list of backoff sleeps (in seconds) performed by
`download_article_with_retry`, in order. -/
def download_article_delays (attempts : Nat → Option ArticleRecord)
    (max_retries : Nat) : List Nat :=
  retryDelaysFrom attempts 0 max_retries

/-- `f'<p>...</p>'` wrapping used by both normalization paths. -/
def wrapP (p : String) : String := "<p>" ++ p ++ "</p>"

/-- Primary normalization (run.py lines 119-121): wrap each extracted
paragraph text and join with newlines. -/
def normalize_html (paras : List String) : String :=
  String.intercalate "\n" (paras.map (fun p => wrapP p))

/-- Fallback normalization (run.py lines 123-124):
`'\n'.join([f'<p>{p.strip()}</p>' for p in article.text.split('\n\n') if p.strip()])`. -/
def normalize_text (text : String) : String :=
  String.intercalate "\n"
    (((text.splitOn "\n\n").filter (fun p => p.trim != "")).map (fun p => wrapP p.trim))

/-- run.py lines 117-124: `article.article_html` is truthy (present and
non-empty) → primary path; otherwise the plain-text fallback. -/
def article_content_of (env : Env) (a : ArticleRecord) : String :=
  match a.article_html with
  | some html => if html = "" then normalize_text a.text else normalize_html (env.htmlParagraphs html)
  | none => normalize_text a.text

/-- run.py line 127: `article.title.replace(' ', '_').replace('/', '_')[:30]`. -/
def chapter_name_of (title : String) : String :=
  ((title.replace " " "_").replace "/" "_").take 30

/-- Python `f'{x}'` on an optional string: `None` prints as `"None"`. -/
def pyStrOfOpt : Option String → String
  | some s => s
  | none => "None"

/-- The chapter HTML assembled at run.py lines 136-147. -/
def chapter_content (title cat : String) (imgPath : Option String)
    (topImg : String) (body : String) : String :=
  "\n            <html>\n                <head>\n                    <title>" ++ title ++
  "</title>\n                </head>\n                <body>\n                    <h1>" ++ title ++
  "</h1>\n                    <h3>" ++ cat ++
  "</h3>\n                    <img src=\"" ++ pyStrOfOpt imgPath ++ "\" alt=\"" ++ topImg ++
  "\"/>  " ++ body ++ "\n                </body>\n            </html>\n            "

/-- Mutable state of the per-article loop: the chapter list, the image items
added to the book, and how many random names have been drawn. -/
structure LoopState where
  chapters : List Chapter
  images : List String
  nameIdx : Nat
deriving Repr, DecidableEq

/-- One iteration of the loop at run.py lines 93-169 on item `(url, cat)`.

* extraction failure (`None`) → `continue` (lines 96-98);
* the date access `article.publish_date.date()` (lines 102 and 112) happens
  OUTSIDE the `try`: a `None` date raises an uncaught `AttributeError`;
* date mismatch → `continue` (lines 112-113);
* lines 115-169 are a `try` whose handler catches every `Exception` and
  skips the item; when `download_image` returns `None`,
  `open(None, 'rb')` (line 152) raises `TypeError` inside the `try`, so the
  item is skipped and no chapter is appended. -/
def processItem (env : Env) (st : LoopState) (it : String × String) : Except PyExn LoopState :=
  match download_article_with_retry (env.fetchArticle it.1) 3 with
  | none => .ok st
  | some article =>
    match article.publish_date with
    | none => .error .attributeError
    | some d =>
      if d ≠ env.today then .ok st
      else
        let body := article_content_of env article
        match download_image env st.nameIdx article.top_img with
        | none => .ok st
        | some path =>
          .ok { chapters := st.chapters ++
                  [{ title := article.title,
                     file_name := chapter_name_of article.title ++ ".xhtml",
                     content := chapter_content article.title it.2 (some path) article.top_img body }],
                images := st.images ++ [path],
                nameIdx := st.nameIdx + 1 }

/-- The whole article loop; an uncaught exception aborts it. -/
def processAll (env : Env) : List (String × String) → LoopState → Except PyExn LoopState
  | [], st => .ok st
  | it :: rest, st =>
    match processItem env st it with
    | .error e => .error e
    | .ok st' => processAll env rest st'

/-- run.py line 78: `[(item.find('link').text, item.find('category').text)
for item in items]` — a missing child makes `.text` an attribute access on
`None`, raising `AttributeError` with no handler in scope. -/
def parseItems : List RawItem → Except PyExn (List (String × String))
  | [] => .ok []
  | it :: rest =>
    match it.link, it.category with
    | some l, some c =>
      match parseItems rest with
      | .ok tl => .ok ((l, c) :: tl)
      | .error e => .error e
    | _, _ => .error .attributeError

/-- The sort order of run.py line 79: key = category, `reverse=True`. -/
def categoryDesc (a b : String × String) : Prop := b.2 ≤ a.2

instance : DecidableRel categoryDesc := fun a b =>
  decidable_of_iff (b.2.toList ≤ a.2.toList) String.le_iff_toList_le.symm

/-- run.py line 79: `articles.sort(key=lambda x: x[1], reverse=True)`.
CPython's `list.sort` is a stable sort; with `reverse=True` equal keys still
keep their original order.  Embedded as the stable insertion sort for the
same total preorder. -/
def sortArticles (l : List (String × String)) : List (String × String) :=
  List.insertionSort categoryDesc l

/-- Observable outcome of `create_epub`: the returned boolean, the chapter
list, the table of contents (single section 'Articles'), the spine
(`['nav'] + chapters`, by file name), and the written output file, if any. -/
structure RunOutput where
  success : Bool
  chapters : List Chapter
  toc : List Chapter
  spine : List String
  written : Option String
deriving Repr, DecidableEq

/-- `create_epub` (run.py lines 65-219).

* feed fetch failure → caught, `return False`, nothing else happens;
* feed-item parsing (line 78) has no exception handler: a missing
  `<link>`/`<category>` raises out of `create_epub`;
* the per-article loop runs on the category-descending sorted list;
* zero chapters → `return False` before any toc/spine/write;
* otherwise toc/spine are built from the chapter list in order and
  `write_epub` either succeeds (`return True`) or its exception is caught
  (`return False`). -/
def create_epub (env : Env) (output_filename : String) : Except PyExn RunOutput :=
  match env.feed with
  | none => .ok { success := false, chapters := [], toc := [], spine := [], written := none }
  | some items =>
    match parseItems items with
    | .error e => .error e
    | .ok arts =>
      let sorted := sortArticles arts
      match processAll env sorted { chapters := [], images := [], nameIdx := 0 } with
      | .error e => .error e
      | .ok st =>
        if st.chapters = [] then
          .ok { success := false, chapters := [], toc := [], spine := [], written := none }
        else
          let spine := "nav" :: st.chapters.map Chapter.file_name
          if env.writeOk then
            .ok { success := true, chapters := st.chapters, toc := st.chapters,
                  spine := spine, written := some output_filename }
          else
            .ok { success := false, chapters := st.chapters, toc := st.chapters,
                  spine := spine, written := none }

/-- `create_session_with_retries` configuration (run.py lines 35-46). -/
structure RetryConfig where
  total : Nat
  backoff_factor : Nat
  status_forcelist : List Nat
deriving Repr, DecidableEq

/-- A `requests.Session` as far as run.py observes it: its retry
configuration and the URL schemes the retrying adapter is mounted for. -/
structure Session where
  retries : RetryConfig
  mounted : List String
deriving Repr, DecidableEq

/-- `create_session_with_retries` (run.py lines 35-46). -/
def create_session_with_retries : Session :=
  { retries := { total := 5, backoff_factor := 1, status_forcelist := [500, 502, 503, 504] },
    mounted := ["http://", "https://"] }

/-- Modelled from the spec: the execution of `urllib3.util.retry.Retry` is
library code absent from this repository.  Per the spec (§4.1) the fetcher
makes up to `total` attempts and waits
`backoff_factor * 2 ^ (attempt - 1)` seconds before attempt `attempt`
(1-indexed), i.e. 1, 2, 4, 8, 16 seconds for `backoff_factor = 1`. -/
def retryWaits (cfg : RetryConfig) : List Nat :=
  (List.range cfg.total).map (fun k => cfg.backoff_factor * 2 ^ k)

/-- Modelled from the spec: the bound on the number of attempts the
configured session makes. -/
def maxAttempts (cfg : RetryConfig) : Nat := cfg.total

/-- Modelled from the spec: the session retries exactly on the listed
response statuses (and on connection-level failures). -/
def shouldRetryStatus (cfg : RetryConfig) (s : Nat) : Bool :=
  cfg.status_forcelist.contains s

/-- The fallback normalization as the spec words it: the segments of the
plain-text body split on blank-line boundaries, each whitespace-trimmed,
the empty ones discarded, each survivor wrapped as a paragraph element,
joined by newlines, in original order. -/
def spec_fallback_paragraphs (text : String) : String :=
  String.intercalate "\n"
    ((((text.splitOn "\n\n").map String.trim).filter (fun p => p != "")).map wrapP)

/-- Does this item end up as a chapter?  (Extraction succeeds, the date
matches today, and the image download succeeds.) -/
def itemBuilds (env : Env) (it : String × String) : Bool :=
  match download_article_with_retry (env.fetchArticle it.1) 3 with
  | some a => decide (a.publish_date = some env.today) && env.imageOk a.top_img
  | none => false

/-- Does processing this item avoid the uncaught `AttributeError`?
(Either extraction fails, or the extracted record has a publish date.) -/
def itemSafe (env : Env) (it : String × String) : Bool :=
  match download_article_with_retry (env.fetchArticle it.1) 3 with
  | some a => a.publish_date.isSome
  | none => true

/-- The title the item would contribute ('' when extraction fails). -/
def itemTitle (env : Env) (it : String × String) : String :=
  match download_article_with_retry (env.fetchArticle it.1) 3 with
  | some a => a.title
  | none => ""

/-! ### Concrete environments used to instantiate the theorems -/

/-- A representative successfully extracted article. -/
def baseArticle : ArticleRecord :=
  { title := "Titular de prueba", publish_date := some 20853, article_html := none,
    text := "Primer parrafo.\n\nSegundo parrafo.", top_img := "http://img.example/a.jpg" }

/-- A run in which everything succeeds. -/
def envBase : Env :=
  { feed := some [{ link := some "http://example.com/a", category := some "internacional" }],
    fetchArticle := fun _ _ => some baseArticle,
    htmlParagraphs := fun _ => [],
    imageOk := fun _ => true,
    names := fun k => "aBcDeFgHi" ++ toString k,
    today := 20853,
    writeOk := true }

/-- Same run, but the lead-image download fails. -/
def envImgFail : Env := { envBase with imageOk := fun _ => false }

/-- Same run, but newspaper finds no publish date. -/
def envNoDate : Env :=
  { envBase with fetchArticle := fun _ _ => some { baseArticle with publish_date := none } }

/-- Same run, but `epub.write_epub` raises. -/
def envWriteFail : Env := { envBase with writeOk := false }

/-- A feed with one good item and one whose article has no publish date. -/
def envMixed : Env :=
  { envBase with
    feed := some [{ link := some "http://example.com/a", category := some "internacional" },
                  { link := some "http://example.com/b", category := some "cultura" }],
    fetchArticle := fun url _ =>
      if url = "http://example.com/b" then some { baseArticle with publish_date := none }
      else some baseArticle }

/-- The all-good run again, with a different random-name stream. -/
def envAltNames : Env := { envBase with names := fun k => "ZyXwVuTsR" ++ toString k }

instance : IsTotal (String × String) categoryDesc :=
  ⟨fun a b => le_total b.2 a.2⟩

instance : IsTrans (String × String) categoryDesc :=
  ⟨fun _ _ _ hab hbc => le_trans hbc hab⟩

/-- The chapter appended by `processItem` when extraction, date filter and
image capture all succeed, with `idx` the current random-name counter. -/
def builtChapter (env : Env) (it : String × String) (a : ArticleRecord) (idx : Nat) : Chapter :=
  { title := a.title,
    file_name := chapter_name_of a.title ++ ".xhtml",
    content := chapter_content a.title it.2 (some (env.names idx ++ ".jpeg"))
      a.top_img (article_content_of env a) }

/-- Two runs that see the same network and clock but may draw different
random scratch-image filenames. -/
def EnvSim (e1 e2 : Env) : Prop :=
  e1.feed = e2.feed ∧ e1.fetchArticle = e2.fetchArticle ∧
  e1.htmlParagraphs = e2.htmlParagraphs ∧ e1.imageOk = e2.imageOk ∧
  e1.today = e2.today ∧ e1.writeOk = e2.writeOk

/-- Loop states that agree on everything except chapter contents and image
assets (which embed the random filenames): same chapter titles, same
chapter file names, in the same order, and the same name counter. -/
def StateSim (s1 s2 : LoopState) : Prop :=
  s1.chapters.map Chapter.title = s2.chapters.map Chapter.title ∧
  s1.chapters.map Chapter.file_name = s2.chapters.map Chapter.file_name ∧
  s1.nameIdx = s2.nameIdx

end ElPais

namespace ElPais

/-! ### Helper lemmas -/

theorem parseItems_error_of_missing {items : List RawItem}
    (h : ∃ it ∈ items, it.link = none ∨ it.category = none) :
    parseItems items = .error .attributeError := by
  induction items with
  | nil => simp at h
  | cons a t ih =>
    obtain ⟨it, hmem, hbad⟩ := h
    rcases List.mem_cons.mp hmem with rfl | hmem'
    · cases hl : it.link with
      | none => simp [parseItems, hl]
      | some l =>
        cases hc : it.category with
        | none => simp [parseItems, hl, hc]
        | some c => rw [hl] at hbad; rw [hc] at hbad; simp at hbad
    · have ht := ih ⟨it, hmem', hbad⟩
      cases hl : a.link with
      | none => simp [parseItems, hl]
      | some l =>
        cases hc : a.category with
        | none => simp [parseItems, hl, hc]
        | some c => simp [parseItems, hl, hc, ht]

theorem parseItems_length {items : List RawItem} {arts : List (String × String)}
    (h : parseItems items = .ok arts) : arts.length = items.length := by
  induction items generalizing arts with
  | nil => simp [parseItems] at h; simp [← h]
  | cons a t ih =>
    cases hl : a.link with
    | none => simp [parseItems, hl] at h
    | some l =>
      cases hc : a.category with
      | none => simp [parseItems, hl, hc] at h
      | some c =>
        rw [parseItems, hl, hc] at h
        cases hrec : parseItems t with
        | error e => rw [hrec] at h; simp at h
        | ok tl =>
          rw [hrec] at h
          simp only [Except.ok.injEq] at h
          simp [← h, ih hrec]

theorem map_filter_trim (l : List String) :
    ((l.map String.trim).filter (fun p => p != "")).map wrapP
      = (l.filter (fun p => p.trim != "")).map (fun p => wrapP p.trim) := by
  induction l with
  | nil => rfl
  | cons a t ih =>
    by_cases h : a.trim = ""
    · simp [List.filter_cons, h, ih]
    · simp [List.filter_cons, h, ih]

/-! ### C6 -/

/-- C6: for an article record whose structured body HTML is absent, the
normalizer output is exactly the non-empty, whitespace-trimmed segments of
the plain-text body split on blank-line boundaries, each wrapped as a
paragraph element, joined by newlines, in the original order
(`spec_fallback_paragraphs` is the spec's wording of that transformation). -/
theorem c6_fallback_normalizer :
    (∀ text, normalize_text text = spec_fallback_paragraphs text) ∧
    (∀ (env : Env) (a : ArticleRecord), a.article_html = none →
      article_content_of env a = spec_fallback_paragraphs a.text) := by
  have key : ∀ text, normalize_text text = spec_fallback_paragraphs text := by
    intro text
    unfold normalize_text spec_fallback_paragraphs
    rw [map_filter_trim]
  refine ⟨key, fun env a h => ?_⟩
  unfold article_content_of
  rw [h, key]

/-- Witness for C6 at a concrete text and a concrete article record. -/
theorem c6_fallback_normalizer_witness :
    normalize_text "Uno.\n\n  Dos.  \n\n\n\nTres." =
      spec_fallback_paragraphs "Uno.\n\n  Dos.  \n\n\n\nTres." ∧
    article_content_of envBase baseArticle = spec_fallback_paragraphs baseArticle.text :=
  ⟨c6_fallback_normalizer.1 _, c6_fallback_normalizer.2 envBase baseArticle rfl⟩

/-! ### C7 -/

/-- C7: when the feed fetch fails after its retries, `create_epub` returns
`False`, writes no archive, and performs no per-item processing: the run
fails with no partial output. -/
theorem c7_feed_failure_is_fatal (env : Env) (fn : String) (h : env.feed = none) :
    create_epub env fn =
      .ok { success := false, chapters := [], toc := [], spine := [], written := none } := by
  unfold create_epub
  rw [h]

/-- Witness for C7: a concrete run with an unreachable feed. -/
theorem c7_feed_failure_is_fatal_witness :
    create_epub { envBase with feed := none } "el_pais.epub" =
      .ok { success := false, chapters := [], toc := [], spine := [], written := none } :=
  c7_feed_failure_is_fatal _ "el_pais.epub" rfl

/-! ### C10 -/

/-- C10: an `<item>` lacking a `<link>` or `<category>` child makes
`create_epub` raise an uncaught `AttributeError` (here: return
`.error .attributeError` rather than any `.ok` boolean) — the feed-parsing
step has no per-item failure isolation. -/
theorem c10_feed_parsing_raises (env : Env) (items : List RawItem) (fn : String)
    (hf : env.feed = some items)
    (h : ∃ it ∈ items, it.link = none ∨ it.category = none) :
    create_epub env fn = .error .attributeError := by
  unfold create_epub
  rw [hf]
  simp [parseItems_error_of_missing h]

/-- Witness for C10: a concrete feed whose only item has no `<link>`. -/
theorem c10_feed_parsing_raises_witness :
    create_epub { envBase with feed := some [{ link := none, category := some "espana" }] }
      "el_pais.epub" = .error .attributeError :=
  c10_feed_parsing_raises _ _ "el_pais.epub" rfl
    ⟨{ link := none, category := some "espana" }, by simp, Or.inl rfl⟩

/-! ### C3 -/

/-- C3 as stated is false: with every attempt failing, the sleeps performed
by `download_article_with_retry` are `[1, 2]` — `2 ^ 0 = 1`, not `0` — and
not the claimed `0s, 2s, 4s`. -/
theorem c3_counterexample :
    download_article_delays (fun _ => none) 3 = [1, 2] ∧
    download_article_delays (fun _ => none) 3 ≠ [0, 2, 4] := by
  constructor
  · rfl
  · decide

/-- C3 amended: the extractor makes up to 3 attempts, each an independent
fetch+parse and any exception counting as a failure; after a failed
attempt `i` (0-indexed) that is not the last it waits `2 ^ i` seconds, so
the inter-attempt delays are 1s then 2s (two delays, the first 1s, not
zero); on final failure it returns null rather than raising. -/
theorem c3_retry_policy (attempts : Nat → Option ArticleRecord) :
    ((∀ i, i < 3 → attempts i = none) →
      download_article_with_retry attempts 3 = none ∧
      download_article_delays attempts 3 = [1, 2]) ∧
    (∀ a, attempts 0 = some a →
      download_article_with_retry attempts 3 = some a ∧
      download_article_delays attempts 3 = []) ∧
    (∀ a, attempts 0 = none → attempts 1 = some a →
      download_article_with_retry attempts 3 = some a ∧
      download_article_delays attempts 3 = [1]) ∧
    (∀ a, attempts 0 = none → attempts 1 = none → attempts 2 = some a →
      download_article_with_retry attempts 3 = some a ∧
      download_article_delays attempts 3 = [1, 2]) := by
  refine ⟨fun h => ?_, fun a h0 => ?_, fun a h0 h1 => ?_, fun a h0 h1 h2 => ?_⟩
  · have h0 := h 0 (by omega)
    have h1 := h 1 (by omega)
    have h2 := h 2 (by omega)
    constructor
    · simp [download_article_with_retry, retryFrom, h0, h1, h2]
    · simp [download_article_delays, retryDelaysFrom, h0, h1, h2]
  · constructor
    · simp [download_article_with_retry, retryFrom, h0]
    · simp [download_article_delays, retryDelaysFrom, h0]
  · constructor
    · simp [download_article_with_retry, retryFrom, h0, h1]
    · simp [download_article_delays, retryDelaysFrom, h0, h1]
  · constructor
    · simp [download_article_with_retry, retryFrom, h0, h1, h2]
    · simp [download_article_delays, retryDelaysFrom, h0, h1, h2]

/-- Witness for C3 (amended): all three attempts fail. -/
theorem c3_retry_policy_witness :
    download_article_with_retry (fun _ => none) 3 = none ∧
    download_article_delays (fun _ => none) 3 = [1, 2] :=
  (c3_retry_policy (fun _ => none)).1 (fun _ _ => rfl)

/-! ### C8 -/

/-- C8: the session used for the feed is configured to retry on statuses
500, 502, 503, 504 (and, per the spec model, on connection-level
failures), bounded by 5 with `backoff_factor = 1` giving the wait schedule
1s, 2s, 4s, 8s, 16s, and the retrying adapter is mounted for both the
`http` and `https` schemes.  The retry execution itself is urllib3 library
code, modelled from the spec (`retryWaits`, `maxAttempts`,
`shouldRetryStatus`); the configuration values are those of
`create_session_with_retries`. -/
theorem c8_session_retry_config :
    maxAttempts create_session_with_retries.retries = 5 ∧
    create_session_with_retries.retries.backoff_factor = 1 ∧
    retryWaits create_session_with_retries.retries = [1, 2, 4, 8, 16] ∧
    (∀ s : Nat, shouldRetryStatus create_session_with_retries.retries s = true ↔
      s ∈ [500, 502, 503, 504]) ∧
    create_session_with_retries.mounted = ["http://", "https://"] := by
  refine ⟨rfl, rfl, by decide, fun s => ?_, rfl⟩
  simp [shouldRetryStatus, create_session_with_retries]

/-- Witness for C8 at a concrete status. -/
theorem c8_session_retry_config_witness :
    shouldRetryStatus create_session_with_retries.retries 503 = true ↔
      503 ∈ [500, 502, 503, 504] :=
  c8_session_retry_config.2.2.2.1 503

/-! ### C1 -/

/-- C1 as stated is false: in a run whose single article extracts cleanly
and is dated today but whose lead-image download fails, `download_image`
does return null, yet the chapter is NOT built — `open(None, 'rb')` raises
inside the per-item `try`, the item is skipped, and the run ends with zero
chapters (compare: with the image succeeding, `envBase` yields one
chapter). -/
theorem c1_counterexample :
    download_image envImgFail 0 baseArticle.top_img = none ∧
    create_epub envImgFail "el_pais.epub" =
      .ok { success := false, chapters := [], toc := [], spine := [], written := none } ∧
    (create_epub envBase "el_pais.epub").toOption.map (fun o => o.chapters.length) = some 1 := by
  refine ⟨rfl, rfl, rfl⟩

/-- C1 amended: when lead-image capture fails, `download_image` returns
null and the failure is caught at the item boundary (never fatal to the
run), but the chapter for that article is NOT built: reading the null path
raises `TypeError` inside the per-item `try`, so the item is skipped and
its chapter is omitted; no random filename is consumed. -/
theorem c1_image_failure_skips_item (env : Env) (st : LoopState) (url cat : String)
    (a : ArticleRecord)
    (hex : download_article_with_retry (env.fetchArticle url) 3 = some a)
    (hdate : a.publish_date = some env.today)
    (himg : env.imageOk a.top_img = false) :
    download_image env st.nameIdx a.top_img = none ∧
    processItem env st (url, cat) = .ok st := by
  constructor
  · simp [download_image, himg]
  · simp [processItem, hex, hdate, download_image, himg]

/-- Witness for C1 (amended) in the concrete failing-image run. -/
theorem c1_image_failure_skips_item_witness :
    download_image envImgFail 0 baseArticle.top_img = none ∧
    processItem envImgFail { chapters := [], images := [], nameIdx := 0 }
      ("http://example.com/a", "internacional") =
      .ok { chapters := [], images := [], nameIdx := 0 } :=
  c1_image_failure_skips_item envImgFail
    { chapters := [], images := [], nameIdx := 0 }
    "http://example.com/a" "internacional" baseArticle rfl rfl rfl

/-! ### C2 -/

/-- C2 as stated is false: an article record whose publish date is absent
makes the per-item step raise an uncaught `AttributeError`
(`article.publish_date.date()` runs OUTSIDE the `try`), so `create_epub`
neither returns `True` nor `False` — the exception escapes. -/
theorem c2_counterexample :
    create_epub envNoDate "el_pais.epub" = .error .attributeError := by
  rfl

/-- C2 amended: failures inside the chapter-building block (normalize,
image capture, assembly) are caught at the item boundary, and extraction
failure or date mismatch just skips the item; but the date-filter step
runs before the `try`, so an article record with an absent publish date
raises an uncaught `AttributeError` out of `create_epub`.  Per-item
processing is exception-free exactly when every extracted record carries a
publish date. -/
theorem c2_item_isolation (env : Env) (st : LoopState) (url cat : String) :
    (itemSafe env (url, cat) = true →
      ∃ st', processItem env st (url, cat) = .ok st') ∧
    (∀ a, download_article_with_retry (env.fetchArticle url) 3 = some a →
      a.publish_date = none →
      processItem env st (url, cat) = .error .attributeError) := by
  constructor
  · intro h
    unfold itemSafe at h
    unfold processItem
    cases hex : download_article_with_retry (env.fetchArticle url) 3 with
    | none => exact ⟨st, rfl⟩
    | some a =>
      rw [hex] at h
      simp only at h
      cases hd : a.publish_date with
      | none => rw [hd] at h; simp at h
      | some d =>
        simp only [hd]
        by_cases hdt : d = env.today
        · simp only [hdt, ne_eq, not_true_eq_false, if_false, ite_false]
          cases himg : download_image env st.nameIdx a.top_img with
          | none => exact ⟨st, rfl⟩
          | some path => exact ⟨_, rfl⟩
        · exact ⟨st, by simp [hdt]⟩
  · intro a hex hd
    simp [processItem, hex, hd]

/-! ### Loop characterization lemmas -/

theorem processItem_builds (env : Env) (st : LoopState) (it : String × String)
    (hb : itemBuilds env it = true) :
    ∃ st', processItem env st it = .ok st' ∧
      st'.chapters.map Chapter.title = st.chapters.map Chapter.title ++ [itemTitle env it] ∧
      st'.chapters.map Chapter.file_name = st.chapters.map Chapter.file_name ++
        [chapter_name_of (itemTitle env it) ++ ".xhtml"] ∧
      st'.nameIdx = st.nameIdx + 1 ∧
      st'.chapters.length = st.chapters.length + 1 := by
  unfold itemBuilds at hb
  cases hex : download_article_with_retry (env.fetchArticle it.1) 3 with
  | none => rw [hex] at hb; simp at hb
  | some a =>
    rw [hex] at hb
    simp only [Bool.and_eq_true, decide_eq_true_eq] at hb
    obtain ⟨hd, himg⟩ := hb
    refine ⟨{ chapters := st.chapters ++ [builtChapter env it a st.nameIdx],
              images := st.images ++ [env.names st.nameIdx ++ ".jpeg"],
              nameIdx := st.nameIdx + 1 }, ?_, ?_, ?_, ?_, ?_⟩
    · simp [processItem, hex, hd, download_image, himg, builtChapter]
    · simp [itemTitle, hex, builtChapter]
    · simp [itemTitle, hex, builtChapter]
    · simp
    · simp

theorem processItem_skips (env : Env) (st : LoopState) (it : String × String)
    (hb : itemBuilds env it = false) (hs : itemSafe env it = true) :
    processItem env st it = .ok st := by
  unfold itemBuilds at hb
  unfold itemSafe at hs
  unfold processItem
  cases hex : download_article_with_retry (env.fetchArticle it.1) 3 with
  | none => rfl
  | some a =>
    rw [hex] at hb
    rw [hex] at hs
    simp only at hb hs
    cases hd : a.publish_date with
    | none => rw [hd] at hs; simp at hs
    | some d =>
      simp only [hd]
      by_cases hdt : d = env.today
      · subst hdt
        rw [hd] at hb
        have himg : env.imageOk a.top_img = false := by simpa using hb
        simp [download_image, himg]
      · simp [hdt]

theorem processItem_error_of_unsafe (env : Env) (st : LoopState) (it : String × String)
    (h : itemSafe env it = false) :
    processItem env st it = .error .attributeError := by
  unfold itemSafe at h
  unfold processItem
  cases hex : download_article_with_retry (env.fetchArticle it.1) 3 with
  | none => rw [hex] at h; simp at h
  | some a =>
    rw [hex] at h
    simp only at h
    cases hd : a.publish_date with
    | some d => rw [hd] at h; simp at h
    | none => simp [hd]

theorem itemBuilds_congr (e1 e2 : Env) (he : EnvSim e1 e2) (it : String × String) :
    itemBuilds e2 it = itemBuilds e1 it := by
  obtain ⟨_, hfetch, _, himg, htoday, _⟩ := he
  unfold itemBuilds
  rw [← hfetch, ← htoday, ← himg]

theorem itemSafe_congr (e1 e2 : Env) (he : EnvSim e1 e2) (it : String × String) :
    itemSafe e2 it = itemSafe e1 it := by
  obtain ⟨_, hfetch, _, _, _, _⟩ := he
  unfold itemSafe
  rw [← hfetch]

theorem itemTitle_congr (e1 e2 : Env) (he : EnvSim e1 e2) (it : String × String) :
    itemTitle e2 it = itemTitle e1 it := by
  obtain ⟨_, hfetch, _, _, _, _⟩ := he
  unfold itemTitle
  rw [← hfetch]

theorem processAll_ok_of_safe (env : Env) (l : List (String × String)) :
    ∀ st : LoopState, (∀ it ∈ l, itemSafe env it = true) →
    ∃ st', processAll env l st = .ok st' ∧
      st'.chapters.map Chapter.title =
        st.chapters.map Chapter.title ++ (l.filter (itemBuilds env)).map (itemTitle env) ∧
      st'.chapters.length = st.chapters.length + (l.filter (itemBuilds env)).length := by
  induction l with
  | nil => exact fun st _ => ⟨st, rfl, by simp, by simp⟩
  | cons it rest ih =>
    intro st hs
    have hsit : itemSafe env it = true := hs it (List.mem_cons_self it rest)
    have hsrest : ∀ x ∈ rest, itemSafe env x = true :=
      fun x hx => hs x (List.mem_cons_of_mem it hx)
    by_cases hb : itemBuilds env it = true
    · obtain ⟨st1, hst1, ht1, _, _, hl1⟩ := processItem_builds env st it hb
      obtain ⟨st', hst', ht', hl'⟩ := ih st1 hsrest
      refine ⟨st', ?_, ?_, ?_⟩
      · simp [processAll, hst1, hst']
      · rw [ht', ht1]
        simp [List.filter_cons, hb]
      · rw [hl', hl1]
        simp [List.filter_cons, hb]
        omega
    · have hb' : itemBuilds env it = false := by simpa using hb
      have hskip := processItem_skips env st it hb' hsit
      obtain ⟨st', hst', ht', hl'⟩ := ih st hsrest
      refine ⟨st', ?_, ?_, ?_⟩
      · simp [processAll, hskip, hst']
      · rw [ht']
        simp [List.filter_cons, hb']
      · rw [hl']
        simp [List.filter_cons, hb']

/-! ### create_epub characterization lemmas -/

theorem create_epub_feed_none (env : Env) (fn : String) (h : env.feed = none) :
    create_epub env fn =
      .ok { success := false, chapters := [], toc := [], spine := [], written := none } := by
  unfold create_epub
  rw [h]

theorem create_epub_parse_error (env : Env) (fn : String) (items : List RawItem) (e : PyExn)
    (hf : env.feed = some items) (hp : parseItems items = .error e) :
    create_epub env fn = .error e := by
  unfold create_epub
  rw [hf]
  simp only [hp]

theorem create_epub_processAll_error (env : Env) (fn : String) (items : List RawItem)
    (arts : List (String × String)) (e : PyExn)
    (hf : env.feed = some items) (hp : parseItems items = .ok arts)
    (hpa : processAll env (sortArticles arts) { chapters := [], images := [], nameIdx := 0 } =
      .error e) :
    create_epub env fn = .error e := by
  unfold create_epub
  rw [hf]
  simp only [hp, hpa]

theorem create_epub_processAll_ok (env : Env) (fn : String) (items : List RawItem)
    (arts : List (String × String)) (st : LoopState)
    (hf : env.feed = some items) (hp : parseItems items = .ok arts)
    (hpa : processAll env (sortArticles arts) { chapters := [], images := [], nameIdx := 0 } =
      .ok st) :
    create_epub env fn =
      (if st.chapters = [] then
        .ok { success := false, chapters := [], toc := [], spine := [], written := none }
      else if env.writeOk then
        .ok { success := true, chapters := st.chapters, toc := st.chapters,
              spine := "nav" :: st.chapters.map Chapter.file_name, written := some fn }
      else
        .ok { success := false, chapters := st.chapters, toc := st.chapters,
              spine := "nav" :: st.chapters.map Chapter.file_name, written := none }) := by
  unfold create_epub
  rw [hf]
  simp only [hp, hpa]

/-! ### Stable-sort lemmas -/

theorem sortArticles_perm (l : List (String × String)) :
    List.Perm (sortArticles l) l :=
  List.perm_insertionSort categoryDesc l

theorem sortArticles_sorted (l : List (String × String)) :
    List.Sorted categoryDesc (sortArticles l) :=
  List.sorted_insertionSort categoryDesc l

theorem filter_orderedInsert_cat (c : String) (a : String × String)
    (l : List (String × String)) :
    (List.orderedInsert categoryDesc a l).filter (fun x => decide (x.2 = c)) =
      if a.2 = c then a :: l.filter (fun x => decide (x.2 = c))
      else l.filter (fun x => decide (x.2 = c)) := by
  induction l with
  | nil => by_cases h : a.2 = c <;> simp [List.orderedInsert, List.filter_cons, h]
  | cons b t ih =>
    by_cases hr : categoryDesc a b
    · simp only [List.orderedInsert, if_pos hr]
      by_cases h : a.2 = c <;> simp [List.filter_cons, h]
    · simp only [List.orderedInsert, if_neg hr]
      by_cases h : a.2 = c
      · have hbc : b.2 ≠ c := by
          intro hb
          exact hr (by unfold categoryDesc; rw [hb, h])
        simp [List.filter_cons, hbc, ih, h]
      · by_cases hb2 : b.2 = c <;> simp [List.filter_cons, hb2, ih, h]

theorem sortArticles_stable (c : String) (l : List (String × String)) :
    (sortArticles l).filter (fun x => decide (x.2 = c)) =
      l.filter (fun x => decide (x.2 = c)) := by
  induction l with
  | nil => rfl
  | cons a t ih =>
    show (List.orderedInsert categoryDesc a (sortArticles t)).filter _ = _
    rw [filter_orderedInsert_cat]
    by_cases h : a.2 = c <;> simp [List.filter_cons, h, ih]

/-- Witness for C2 (amended): in the all-good run the item step returns
normally; in the missing-date run it raises. -/
theorem c2_item_isolation_witness :
    (∃ st', processItem envBase { chapters := [], images := [], nameIdx := 0 }
      ("http://example.com/a", "internacional") = .ok st') ∧
    processItem envNoDate { chapters := [], images := [], nameIdx := 0 }
      ("http://example.com/a", "internacional") = .error .attributeError :=
  ⟨(c2_item_isolation envBase { chapters := [], images := [], nameIdx := 0 }
      "http://example.com/a" "internacional").1 rfl,
   (c2_item_isolation envNoDate { chapters := [], images := [], nameIdx := 0 }
      "http://example.com/a" "internacional").2
      { baseArticle with publish_date := none } rfl rfl⟩

/-! ### C4 -/

/-- C4's converse as stated is false on two counts: (i) in a run whose one
item is dated today and processes through image capture but whose final
archive write fails, the run returns failure; (ii) adding a second item
whose extracted record lacks a publish date aborts the whole run with an
uncaught exception instead of success. -/
theorem c4_counterexample :
    (itemBuilds envWriteFail ("http://example.com/a", "internacional") = true ∧
     (create_epub envWriteFail "el_pais.epub").toOption.map RunOutput.success = some false) ∧
    (itemBuilds envMixed ("http://example.com/a", "internacional") = true ∧
     create_epub envMixed "el_pais.epub" = .error .attributeError) := by
  exact ⟨⟨rfl, rfl⟩, ⟨rfl, rfl⟩⟩

/-- C4 amended: a run that finalizes with zero chapters returns failure
and writes no archive.  Conversely, for a reachable feed whose items all
parse, whose extracted records all carry a publish date, with at least one
item that processes successfully through image capture, and whose final
archive write succeeds, the run succeeds with a chapter count between 1
and the feed's item count. -/
theorem c4_chapter_invariants :
    (∀ (env : Env) (fn : String) (out : RunOutput),
      create_epub env fn = .ok out → out.chapters = [] →
      out.success = false ∧ out.written = none) ∧
    (∀ (env : Env) (items : List RawItem) (arts : List (String × String)) (fn : String),
      env.feed = some items → parseItems items = .ok arts →
      (∀ it ∈ sortArticles arts, itemSafe env it = true) →
      (∃ it ∈ sortArticles arts, itemBuilds env it = true) →
      env.writeOk = true →
      ∃ out, create_epub env fn = .ok out ∧ out.success = true ∧
        out.written = some fn ∧
        1 ≤ out.chapters.length ∧ out.chapters.length ≤ items.length) := by
  constructor
  · intro env fn out h hnil
    unfold create_epub at h
    cases hfeed : env.feed with
    | none =>
      rw [hfeed] at h
      cases h
      exact ⟨rfl, rfl⟩
    | some items =>
      rw [hfeed] at h
      simp only at h
      cases hp : parseItems items with
      | error e => rw [hp] at h; cases h
      | ok arts =>
        rw [hp] at h
        simp only at h
        cases hpa : processAll env (sortArticles arts)
            { chapters := [], images := [], nameIdx := 0 } with
        | error e => rw [hpa] at h; cases h
        | ok st =>
          rw [hpa] at h
          simp only at h
          by_cases hn : st.chapters = []
          · rw [if_pos hn] at h
            cases h
            exact ⟨rfl, rfl⟩
          · rw [if_neg hn] at h
            cases hw : env.writeOk with
            | true =>
              rw [hw] at h
              simp only [ite_true, if_true] at h
              cases h
              exact absurd hnil hn
            | false =>
              rw [hw] at h
              simp only [Bool.false_eq_true, ite_false, if_false] at h
              cases h
              exact ⟨rfl, rfl⟩
  · intro env items arts fn hf hp hs hbuild hw
    obtain ⟨st', hst', ht', hl'⟩ :=
      processAll_ok_of_safe env (sortArticles arts)
        { chapters := [], images := [], nameIdx := 0 } hs
    obtain ⟨itb, hitb, hb⟩ := hbuild
    have hmemf : itb ∈ (sortArticles arts).filter (itemBuilds env) :=
      List.mem_filter.mpr ⟨hitb, hb⟩
    have hpos : 1 ≤ ((sortArticles arts).filter (itemBuilds env)).length :=
      List.length_pos.mpr (List.ne_nil_of_mem hmemf)
    have hlen : st'.chapters.length = ((sortArticles arts).filter (itemBuilds env)).length := by
      simpa using hl'
    have hub : st'.chapters.length ≤ items.length := by
      have h1 : ((sortArticles arts).filter (itemBuilds env)).length ≤ (sortArticles arts).length :=
        List.length_filter_le _ _
      have h2 : (sortArticles arts).length = arts.length :=
        (sortArticles_perm arts).length_eq
      have h3 : arts.length = items.length := parseItems_length hp
      omega
    have hnil : ¬ st'.chapters = [] := by
      intro hn
      rw [hn] at hlen
      simp at hlen
      omega
    refine ⟨{ success := true, chapters := st'.chapters, toc := st'.chapters,
              spine := "nav" :: st'.chapters.map Chapter.file_name,
              written := some fn }, ?_, rfl, rfl, ?_, hub⟩
    · unfold create_epub
      rw [hf]
      simp only [hp, hst', hnil, if_false, hw, if_true, ite_false, ite_true]
    · show 1 ≤ st'.chapters.length
      omega

/-- Witness for C4 (amended) in the all-good one-item run. -/
theorem c4_chapter_invariants_witness :
    ∃ out, create_epub envBase "el_pais.epub" = .ok out ∧ out.success = true ∧
      out.written = some "el_pais.epub" ∧
      1 ≤ out.chapters.length ∧
      out.chapters.length ≤
        [({ link := some "http://example.com/a", category := some "internacional" } : RawItem)].length :=
  c4_chapter_invariants.2 envBase
    [{ link := some "http://example.com/a", category := some "internacional" }]
    [("http://example.com/a", "internacional")] "el_pais.epub"
    rfl rfl (by decide) (by decide) rfl

/-! ### C5 -/

/-- C5: the feed items are sorted by category descending with a stable
tie-break (per category, the original feed order is preserved) before
processing, and the chapter list, table of contents and spine of the
output list the successfully processed items of that sorted list in
exactly their relative order. -/
theorem c5_sorted_order (env : Env) (items : List RawItem)
    (arts : List (String × String)) (fn : String)
    (hf : env.feed = some items) (hp : parseItems items = .ok arts)
    (hs : ∀ it ∈ sortArticles arts, itemSafe env it = true) :
    List.Sorted categoryDesc (sortArticles arts) ∧
    (∀ c, (sortArticles arts).filter (fun x => decide (x.2 = c)) =
      arts.filter (fun x => decide (x.2 = c))) ∧
    ∃ out, create_epub env fn = .ok out ∧
      out.chapters.map Chapter.title =
        ((sortArticles arts).filter (itemBuilds env)).map (itemTitle env) ∧
      out.toc = out.chapters ∧
      out.spine = (if out.chapters = [] then []
        else "nav" :: out.chapters.map Chapter.file_name) := by
  refine ⟨sortArticles_sorted arts, fun c => sortArticles_stable c arts, ?_⟩
  obtain ⟨st', hst', ht', hl'⟩ :=
    processAll_ok_of_safe env (sortArticles arts)
      { chapters := [], images := [], nameIdx := 0 } hs
  have ht'' : st'.chapters.map Chapter.title =
      ((sortArticles arts).filter (itemBuilds env)).map (itemTitle env) := by
    simpa using ht'
  by_cases hnil : st'.chapters = []
  · refine ⟨{ success := false, chapters := [], toc := [], spine := [], written := none },
      ?_, ?_, rfl, by simp⟩
    · unfold create_epub
      rw [hf]
      simp only [hp, hst', hnil, ite_true, if_true]
    · rw [hnil] at ht''
      simpa using ht''.symm
  · cases hw : env.writeOk with
    | true =>
      refine ⟨{ success := true, chapters := st'.chapters, toc := st'.chapters,
                spine := "nav" :: st'.chapters.map Chapter.file_name,
                written := some fn },
        ?_, ht'', rfl, by simp [hnil]⟩
      unfold create_epub
      rw [hf]
      simp only [hp, hst', hnil, if_false, hw, ite_true, ite_false, if_true]
    | false =>
      refine ⟨{ success := false, chapters := st'.chapters, toc := st'.chapters,
                spine := "nav" :: st'.chapters.map Chapter.file_name,
                written := none },
        ?_, ht'', rfl, by simp [hnil]⟩
      unfold create_epub
      rw [hf]
      simp only [hp, hst', hnil, if_false, hw, ite_true, ite_false, if_true]
      rfl

/-- Witness for C5 in the all-good one-item run. -/
theorem c5_sorted_order_witness :
    ∃ out, create_epub envBase "el_pais.epub" = .ok out ∧
      out.chapters.map Chapter.title =
        ((sortArticles [("http://example.com/a", "internacional")]).filter
          (itemBuilds envBase)).map (itemTitle envBase) ∧
      out.toc = out.chapters ∧
      out.spine = (if out.chapters = [] then []
        else "nav" :: out.chapters.map Chapter.file_name) :=
  (c5_sorted_order envBase
    [{ link := some "http://example.com/a", category := some "internacional" }]
    [("http://example.com/a", "internacional")] "el_pais.epub"
    rfl rfl (by decide)).2.2

/-! ### C9 -/

theorem processItem_sim (e1 e2 : Env) (s1 s2 : LoopState) (it : String × String)
    (he : EnvSim e1 e2) (hs : StateSim s1 s2) :
    (∃ err, processItem e1 s1 it = .error err ∧ processItem e2 s2 it = .error err) ∨
    (∃ t1 t2, processItem e1 s1 it = .ok t1 ∧ processItem e2 s2 it = .ok t2 ∧
      StateSim t1 t2) := by
  obtain ⟨hti, hfi, hni⟩ := hs
  by_cases hsafe : itemSafe e1 it = true
  · by_cases hb : itemBuilds e1 it = true
    · obtain ⟨t1, p1, ht1, hf1, hn1, _⟩ := processItem_builds e1 s1 it hb
      obtain ⟨t2, p2, ht2, hf2, hn2, _⟩ := processItem_builds e2 s2 it
        (by rw [itemBuilds_congr e1 e2 he it]; exact hb)
      right
      refine ⟨t1, t2, p1, p2, ?_, ?_, ?_⟩
      · rw [ht1, ht2, hti, itemTitle_congr e1 e2 he it]
      · rw [hf1, hf2, hfi, itemTitle_congr e1 e2 he it]
      · rw [hn1, hn2, hni]
    · have hb1 : itemBuilds e1 it = false := by simpa using hb
      have hb2 : itemBuilds e2 it = false := by rw [itemBuilds_congr e1 e2 he it]; exact hb1
      have hs2 : itemSafe e2 it = true := by rw [itemSafe_congr e1 e2 he it]; exact hsafe
      right
      exact ⟨s1, s2, processItem_skips e1 s1 it hb1 hsafe,
        processItem_skips e2 s2 it hb2 hs2, ⟨hti, hfi, hni⟩⟩
  · have hs1 : itemSafe e1 it = false := by simpa using hsafe
    have hs2 : itemSafe e2 it = false := by rw [itemSafe_congr e1 e2 he it]; exact hs1
    left
    exact ⟨.attributeError, processItem_error_of_unsafe e1 s1 it hs1,
      processItem_error_of_unsafe e2 s2 it hs2⟩

theorem processAll_sim (e1 e2 : Env) (he : EnvSim e1 e2) (l : List (String × String)) :
    ∀ s1 s2, StateSim s1 s2 →
    (∃ err, processAll e1 l s1 = .error err ∧ processAll e2 l s2 = .error err) ∨
    (∃ t1 t2, processAll e1 l s1 = .ok t1 ∧ processAll e2 l s2 = .ok t2 ∧
      StateSim t1 t2) := by
  induction l with
  | nil => intro s1 s2 hs; right; exact ⟨s1, s2, rfl, rfl, hs⟩
  | cons it rest ih =>
    intro s1 s2 hs
    rcases processItem_sim e1 e2 s1 s2 it he hs with ⟨err, h1, h2⟩ | ⟨t1, t2, h1, h2, hsim⟩
    · left; exact ⟨err, by simp [processAll, h1], by simp [processAll, h2]⟩
    · rcases ih t1 t2 hsim with ⟨err, g1, g2⟩ | ⟨u1, u2, g1, g2, husim⟩
      · left; exact ⟨err, by simp [processAll, h1, g1], by simp [processAll, h2, g2]⟩
      · right
        exact ⟨u1, u2, by simp [processAll, h1, g1], by simp [processAll, h2, g2], husim⟩

/-- C9: two runs against the same feed, articles, image availability and
date, differing only in the random scratch-filename stream, either both
abort with the same exception or both return, agreeing on the boolean
outcome, on the chapter titles and chapter file names in order, on the
table-of-contents titles, on the spine, and on the written output file;
only the random image filenames (inside contents and image assets) may
differ. -/
theorem c9_idempotent_up_to_names (e1 e2 : Env) (fn : String) (he : EnvSim e1 e2) :
    (∃ err, create_epub e1 fn = .error err ∧ create_epub e2 fn = .error err) ∨
    (∃ o1 o2, create_epub e1 fn = .ok o1 ∧ create_epub e2 fn = .ok o2 ∧
      o1.success = o2.success ∧
      o1.chapters.map Chapter.title = o2.chapters.map Chapter.title ∧
      o1.chapters.map Chapter.file_name = o2.chapters.map Chapter.file_name ∧
      o1.toc.map Chapter.title = o2.toc.map Chapter.title ∧
      o1.spine = o2.spine ∧
      o1.written = o2.written) := by
  have hfeed := he.1
  have hwrite := he.2.2.2.2.2
  cases hf : e1.feed with
  | none =>
    rw [create_epub_feed_none e1 fn hf,
        create_epub_feed_none e2 fn (by rw [← hfeed]; exact hf)]
    right; exact ⟨_, _, rfl, rfl, rfl, rfl, rfl, rfl, rfl, rfl⟩
  | some items =>
    have hf2 : e2.feed = some items := by rw [← hfeed]; exact hf
    cases hp : parseItems items with
    | error e =>
      rw [create_epub_parse_error e1 fn items e hf hp,
          create_epub_parse_error e2 fn items e hf2 hp]
      left; exact ⟨e, rfl, rfl⟩
    | ok arts =>
      rcases processAll_sim e1 e2 he (sortArticles arts)
          { chapters := [], images := [], nameIdx := 0 }
          { chapters := [], images := [], nameIdx := 0 } ⟨rfl, rfl, rfl⟩ with
        ⟨err, h1, h2⟩ | ⟨t1, t2, h1, h2, hti, hfi, hni⟩
      · rw [create_epub_processAll_error e1 fn items arts err hf hp h1,
            create_epub_processAll_error e2 fn items arts err hf2 hp h2]
        left; exact ⟨err, rfl, rfl⟩
      · rw [create_epub_processAll_ok e1 fn items arts t1 hf hp h1,
            create_epub_processAll_ok e2 fn items arts t2 hf2 hp h2]
        have hemp : t1.chapters = [] ↔ t2.chapters = [] := by
          constructor
          · intro h
            have h' := hti
            rw [h] at h'
            exact List.map_eq_nil_iff.mp h'.symm
          · intro h
            have h' := hti
            rw [h] at h'
            exact List.map_eq_nil_iff.mp h'
        by_cases hn : t1.chapters = []
        · rw [if_pos hn, if_pos (hemp.mp hn)]
          right; exact ⟨_, _, rfl, rfl, rfl, rfl, rfl, rfl, rfl, rfl⟩
        · rw [if_neg hn, if_neg (fun h => hn (hemp.mpr h))]
          cases hw : e1.writeOk with
          | true =>
            have hw2 : e2.writeOk = true := by rw [← hwrite]; exact hw
            simp only [hw, hw2, ite_true, if_true]
            right
            exact ⟨_, _, rfl, rfl, rfl, hti, hfi, hti, by rw [hfi], rfl⟩
          | false =>
            have hw2 : e2.writeOk = false := by rw [← hwrite]; exact hw
            simp only [hw, hw2, Bool.false_eq_true, ite_false, if_false]
            right
            exact ⟨_, _, rfl, rfl, rfl, hti, hfi, hti, by rw [hfi], rfl⟩

/-- Witness for C9: the all-good run under two different name streams. -/
theorem c9_idempotent_up_to_names_witness :
    (∃ err, create_epub envBase "el_pais.epub" = .error err ∧
      create_epub envAltNames "el_pais.epub" = .error err) ∨
    (∃ o1 o2, create_epub envBase "el_pais.epub" = .ok o1 ∧
      create_epub envAltNames "el_pais.epub" = .ok o2 ∧
      o1.success = o2.success ∧
      o1.chapters.map Chapter.title = o2.chapters.map Chapter.title ∧
      o1.chapters.map Chapter.file_name = o2.chapters.map Chapter.file_name ∧
      o1.toc.map Chapter.title = o2.toc.map Chapter.title ∧
      o1.spine = o2.spine ∧
      o1.written = o2.written) :=
  c9_idempotent_up_to_names envBase envAltNames "el_pais.epub"
    ⟨rfl, rfl, rfl, rfl, rfl, rfl⟩

end ElPais
